import Mathlib

/-!
Verification of the Kitchen Remix orchestration logic: the two API route
handlers (`src/app/api/generate/route.ts`, `src/app/api/whatsapp/route.ts`)
and the transcript builder in `src/app/page.tsx`, shallowly embedded as
executable Lean functions.
-/

namespace KitchenRemix

/-- A JSON value, as produced by a successful `JSON.parse` / `response.json()`
call. Numbers are modelled as integers (no claim in this development depends
on numeric values); objects are association lists whose keys are distinct
because `JSON.parse` collapses duplicate keys. -/
inductive Json where
  | null
  | bool (b : Bool)
  | num (n : Int)
  | str (s : String)
  | arr (elems : List Json)
  | obj (fields : List (String × Json))

/-- Property lookup on the field list of a JSON object; `none` models the
JavaScript value `undefined` for a missing property. -/
def lookupField : List (String × Json) → String → Option Json
  | [], _ => none
  | (k, v) :: fs, key => if k = key then some v else lookupField fs key

/-- The type name zod reports for a JSON value (`getParsedType`). -/
def jsTypeName : Json → String
  | .null => "null"
  | .bool _ => "boolean"
  | .num _ => "number"
  | .str _ => "string"
  | .arr _ => "array"
  | .obj _ => "object"

/-- JavaScript truthiness of a JSON value. -/
def jsTruthy : Json → Bool
  | .null => false
  | .bool b => b
  | .num n => n != 0
  | .str s => !s.isEmpty
  | .arr _ => true
  | .obj _ => true

/-- JavaScript optional property access `v?.key`: defined only on objects,
`undefined` (here `none`) on every other value including `null`. -/
def jsGetField : Json → String → Option Json
  | .obj fs, key => lookupField fs key
  | _, _ => none

/-- JavaScript indexing `v?.[0]`: first element of an array, first character
of a non-empty string (as a one-character string), the property named "0" of
an object, `undefined` otherwise. -/
def jsIndex0 : Json → Option Json
  | .arr (x :: _) => some x
  | .obj fs => lookupField fs "0"
  | .str s =>
    match s.data with
    | [] => none
    | c :: _ => some (.str (String.mk [c]))
  | _ => none

/-- JavaScript falsiness of an optional environment string: `!v` is true
exactly when the variable is absent (`undefined`) or the empty string. -/
def isBlank : Option String → Bool
  | none => true
  | some s => s == ""

/-- The nullish-coalescing operator `a ?? b` on optional strings: the
left value whenever it is present (even if it is the empty string). -/
def resolveRecipient (phoneNumber dflt : Option String) : Option String :=
  match phoneNumber with
  | some p => some p
  | none => dflt

/-! ## Delivery Service (`src/app/api/whatsapp/route.ts`) -/

/-- The three environment variables read by `readEnv`. -/
structure WhatsAppEnv where
  token : Option String
  phoneId : Option String
  defaultRecipient : Option String

/-- A request body accepted by `whatsappSchema`:
`z.object({ message: z.string().min(10), phoneNumber: z.string().optional() })`. -/
structure WaRequest where
  message : String
  phoneNumber : Option String

/-- `whatsappSchema.safeParse` on a parsed JSON body: `message` must be a
string of length at least 10 and `phoneNumber`, when present, a string. -/
def parseWaRequest : Json → Option WaRequest
  | .obj fs =>
    match lookupField fs "message" with
    | some (.str m) =>
      if 10 ≤ m.length then
        match lookupField fs "phoneNumber" with
        | none => some ⟨m, none⟩
        | some (.str p) => some ⟨m, some p⟩
        | some _ => none
      else none
    | _ => none
  | _ => none

/-- The inner `text` object of the Graph API message payload. -/
structure WaText where
  preview_url : Bool
  body : String

/-- The JSON payload the route posts to the Graph API `messages` endpoint. -/
structure WaPayload where
  messaging_product : String
  «to» : String
  type : String
  text : WaText

/-- What the delivery route does with a request, up to the point of the
outbound network call: either it responds early with an error status and
message, or it performs the outbound `fetch` with the given payload. -/
inductive WaStep where
  | respond (status : Nat) (error : String)
  | send (payload : WaPayload)

/-- Error message of the credentials check (route.ts lines 26-34). -/
def waConfigMsg : String :=
  "WhatsApp credentials are not configured. Set WHATSAPP_ACCESS_TOKEN and WHATSAPP_PHONE_NUMBER_ID."

/-- Error message of the recipient check (route.ts lines 55-63). -/
def waRecipientMsg : String :=
  "Provide a phoneNumber in the request or configure WHATSAPP_RECIPIENT."

/-- The final step of the delivery route on a validated request: the
resolved recipient is checked for truthiness (`if (!recipient)`, rejecting
both `undefined` and the empty string with a 400), then the outbound message
payload of route.ts lines 74-82 is sent. -/
def sendStep (req : WaRequest) (recipient : Option String) : WaStep :=
  match recipient with
  | none => .respond 400 waRecipientMsg
  | some r =>
    if r = "" then .respond 400 waRecipientMsg
    else
      .send
        { messaging_product := "whatsapp"
          «to» := r
          type := "text"
          text := { preview_url := false, body := req.message } }

/-- The `POST` handler of `src/app/api/whatsapp/route.ts` up to the outbound
call. The body is `none` when `request.json()` threw (invalid JSON). The
steps mirror the source order: credentials check, JSON body parse, schema
validation, recipient resolution (`phoneNumber ?? defaultRecipient` followed
by a truthiness check), then the outbound send. -/
def waHandler (env : WhatsAppEnv) (body : Option Json) : WaStep :=
  if isBlank env.token || isBlank env.phoneId then
    .respond 500 waConfigMsg
  else
    match body with
    | none => .respond 400 "Invalid JSON body."
    | some j =>
      match parseWaRequest j with
      | none => .respond 400 "Request validation failed."
      | some req =>
        sendStep req (resolveRecipient req.phoneNumber env.defaultRecipient)

/-- Response mapping for a successful messaging-API response
(route.ts lines 96-99): `status` is "queued" when `responseBody?.messages`
is truthy and "sent" otherwise; `id` is `responseBody?.messages?.[0]?.id ?? null`. -/
def waOutcome (responseBody : Json) : String × Json :=
  let messages := jsGetField responseBody "messages"
  ( if (messages.map jsTruthy).getD false then "queued" else "sent",
    ((messages.bind jsIndex0).bind (fun m => jsGetField m "id")).getD Json.null )

/-! ## Generation Service (`src/app/api/generate/route.ts`) -/

/-- A character of the regex class `[a-zA-Z+]`. -/
def isSubtypeChar (c : Char) : Bool :=
  ('a' ≤ c && c ≤ 'z') || ('A' ≤ c && c ≤ 'Z') || c == '+'

/-- Strips a literal character sequence from the front of a character list,
returning the remainder on success. -/
def stripLit : List Char → List Char → Option (List Char)
  | [], rest => some rest
  | _ :: _, [] => none
  | p :: ps, c :: cs => if c = p then stripLit ps cs else none

/-- The anchored regex test `/^data:image\/[a-zA-Z+]+;base64,/.test s`: the
string must start with the literal `data:image/`, one or more characters of
`[a-zA-Z+]`, then the literal `;base64,`. Taking the maximal run of class
characters is equivalent to the regex with backtracking because the literal
that follows begins with `;`, which is not in the class: no shorter run can
satisfy it either. -/
def imagePrefixMatch (s : String) : Bool :=
  match stripLit "data:image/".data s.data with
  | none => false
  | some rest =>
    !(rest.takeWhile isSubtypeChar).isEmpty &&
    (stripLit ";base64,".data (rest.dropWhile isSubtypeChar)).isSome

/-- A request body accepted by `requestSchema` (route.ts lines 5-11). -/
structure GenRequest where
  imageDataUrl : String
  notes : Option String

/-- `requestSchema.safeParse` on a parsed JSON body: `imageDataUrl` must be a
string of length at least 10 matching the image data-URL regex, and `notes`,
when present, a string. -/
def parseGenRequest : Json → Option GenRequest
  | .obj fs =>
    match lookupField fs "imageDataUrl" with
    | some (.str s) =>
      if 10 ≤ s.length && imagePrefixMatch s then
        match lookupField fs "notes" with
        | none => some ⟨s, none⟩
        | some (.str n) => some ⟨s, some n⟩
        | some _ => none
      else none
    | _ => none
  | _ => none

/-- What the generation route does with a request, up to the point of the
outbound model call: either it responds early with an error status and
message, or it submits the validated request to the model provider. -/
inductive GenStep where
  | respond (status : Nat) (error : String)
  | callModel (req : GenRequest)

/-- Error message of the API-key check (route.ts lines 38-43). -/
def genKeyMsg : String := "OPENAI_API_KEY is not set on the server."

/-- The `POST` handler of `src/app/api/generate/route.ts` up to the outbound
model call, in source order: API-key check, JSON body parse (`none` when
`request.json()` threw), schema validation, then the model call. -/
def generateHandler (apiKey : Option String) (body : Option Json) : GenStep :=
  if isBlank apiKey then .respond 500 genKeyMsg
  else
    match body with
    | none => .respond 400 "Invalid JSON body."
    | some j =>
      match parseGenRequest j with
      | none => .respond 400 "Request validation failed."
      | some req => .callModel req

/-! ### The `payloadSchema` validation of the model reply

The reply schema (route.ts lines 108-121) is a zod schema; we embed it as an
executable validator returning either the parsed `GenerationResult` or a
validation-issue message. The issue texts are zod v3 default messages; where
zod collects several issues, the embedding reports the first — no claim
depends on issues beyond the first. -/

/-- zod default message for a missing required field. -/
def requiredMsg : String := "Required"

/-- zod default `invalid_type` message. -/
def expectedMsg (expected : String) (received : Json) : String :=
  "Expected " ++ expected ++ ", received " ++ jsTypeName received

/-- zod default message for `z.string().min n`. -/
def strMinMsg (n : Nat) : String :=
  "String must contain at least " ++ toString n ++ " character(s)"

/-- zod default message for `z.array(..).min n`. -/
def arrMinMsg (n : Nat) : String :=
  "Array must contain at least " ++ toString n ++ " element(s)"

/-- zod default message for `z.array(..).max n`. -/
def arrMaxMsg (n : Nat) : String :=
  "Array must contain at most " ++ toString n ++ " element(s)"

/-- Reads a required string field, as `z.string()` inside `z.object`. -/
def getStr (fs : List (String × Json)) (key : String) :
    Except (List String) String :=
  match lookupField fs key with
  | some (.str s) => .ok s
  | some v => .error [expectedMsg "string" v]
  | none => .error [requiredMsg]

/-- Reads a required array field, as `z.array(..)` inside `z.object`. -/
def getArr (fs : List (String × Json)) (key : String) :
    Except (List String) (List Json) :=
  match lookupField fs key with
  | some (.arr xs) => .ok xs
  | some v => .error [expectedMsg "array" v]
  | none => .error [requiredMsg]

/-- A recipe as validated by the inner object of `payloadSchema`. -/
structure Recipe where
  name : String
  description : String
  ingredients : List String
  steps : List String

/-- The validated model reply: `{ summary, recipes }`. -/
structure GenerationResult where
  summary : String
  recipes : List Recipe

/-- Element-wise validation `z.array(z.string().min minLen)`. -/
def parseStrings (minLen : Nat) : List Json → Except (List String) (List String)
  | [] => .ok []
  | j :: js =>
    match j with
    | .str s =>
      if minLen ≤ s.length then
        match parseStrings minLen js with
        | .error e => .error e
        | .ok rest => .ok (s :: rest)
      else .error [strMinMsg minLen]
    | _ => .error [expectedMsg "string" j]

/-- The inner recipe object of `payloadSchema`: name at least 3 characters,
description at least 10, at least 3 ingredients of at least 2 characters,
at least 3 steps of at least 5 characters. Array-count checks run before
element checks, as in zod. -/
def parseRecipe : Json → Except (List String) Recipe
  | .obj fs =>
    match getStr fs "name" with
    | .error e => .error e
    | .ok name =>
      if 3 ≤ name.length then
        match getStr fs "description" with
        | .error e => .error e
        | .ok description =>
          if 10 ≤ description.length then
            match getArr fs "ingredients" with
            | .error e => .error e
            | .ok ij =>
              if 3 ≤ ij.length then
                match parseStrings 2 ij with
                | .error e => .error e
                | .ok ingredients =>
                  match getArr fs "steps" with
                  | .error e => .error e
                  | .ok sj =>
                    if 3 ≤ sj.length then
                      match parseStrings 5 sj with
                      | .error e => .error e
                      | .ok steps => .ok ⟨name, description, ingredients, steps⟩
                    else .error [arrMinMsg 3]
              else .error [arrMinMsg 3]
          else .error [strMinMsg 10]
      else .error [strMinMsg 3]
  | j => .error [expectedMsg "object" j]

/-- Element-wise validation of the `recipes` array. -/
def parseRecipes : List Json → Except (List String) (List Recipe)
  | [] => .ok []
  | j :: js =>
    match parseRecipe j with
    | .error e => .error e
    | .ok r =>
      match parseRecipes js with
      | .error e => .error e
      | .ok rs => .ok (r :: rs)

/-- `payloadSchema.parse` (route.ts lines 108-123): summary of at least 10
characters and between 3 and 5 recipes, each satisfying the recipe bounds. -/
def parsePayloadE : Json → Except (List String) GenerationResult
  | .obj fs =>
    match getStr fs "summary" with
    | .error e => .error e
    | .ok summary =>
      if 10 ≤ summary.length then
        match getArr fs "recipes" with
        | .error e => .error e
        | .ok js =>
          if 3 ≤ js.length then
            if js.length ≤ 5 then
              match parseRecipes js with
              | .error e => .error e
              | .ok recipes => .ok ⟨summary, recipes⟩
            else .error [arrMaxMsg 5]
          else .error [arrMinMsg 3]
      else .error [strMinMsg 10]
  | j => .error [expectedMsg "object" j]

/-- The textual reply of the model provider, classified by what the two
external steps applied to it — `response.output_text ?? ""` and
`JSON.parse` — yield: no text at all (or the empty string), text that is not
valid JSON, or text parsing to a JSON value. -/
inductive ModelReply where
  | noText
  | invalidJson
  | parsed (j : Json)

/-- What the route returns once the model has replied: an error response
(status and surfaced message) or the validated result, returned verbatim. -/
inductive GenReplyResult where
  | failure (status : Nat) (message : String)
  | success (r : GenerationResult)

/-- The message thrown when the reply text is empty (route.ts line 96). -/
def emptyReplyMsg : String := "Model response was empty."

/-- The message thrown when `JSON.parse` fails (route.ts lines 103-105). -/
def retakeMsg : String :=
  "Model response was not valid JSON. Please retake the photo and try again."

/-- Modelled from the zod library: `ZodError.message` is the JSON
serialization of the issue list, an array of issue objects each carrying its
default message text. The exact rendering is the library's; the route's
behavior depends only on it being the issue serialization, never the
hand-written retake-photo instruction. -/
def zodErrorMessage (issues : List String) : String :=
  "[ " ++ String.intercalate ", "
    (issues.map (fun m => "\x7b \"message\": \"" ++ m ++ "\" \x7d")) ++ " ]"

/-- The tail of the `POST` handler after the outbound model call
(route.ts lines 94-137): empty text throws `emptyReplyMsg`; unparsable text
throws `retakeMsg`; a JSON value failing `payloadSchema.parse` throws the
`ZodError`; every throw is caught and surfaced as a 500 with the thrown
error message; a validated payload is returned as the 200 body. -/
def handleModelReply : ModelReply → GenReplyResult
  | .noText => .failure 500 emptyReplyMsg
  | .invalidJson => .failure 500 retakeMsg
  | .parsed j =>
    match parsePayloadE j with
    | .error issues => .failure 500 (zodErrorMessage issues)
    | .ok r => .success r

/-- Whether the first character list starts the second. -/
def startsList : List Char → List Char → Bool
  | [], _ => true
  | _ :: _, [] => false
  | a :: as, b :: bs => a == b && startsList as bs

/-- Whether `needle` occurs in `hay` (plain character-list containment). -/
def listContains (needle : List Char) : List Char → Bool
  | [] => needle.isEmpty
  | c :: cs => startsList needle (c :: cs) || listContains needle cs

/-- Whether a surfaced error message mentions the photo — the claim about
error guidance is that the message instructs the user to retry with a
different photo, which any such instruction does by naming the photo. -/
def mentionsPhoto (m : String) : Bool :=
  listContains "photo".data m.data

/-! ## Client transcript (`src/app/page.tsx`, `combinedMessage`) -/

/-- The second line pushed by `combinedMessage`:
`summary ? summary + "\n" : ""` — JavaScript truthiness, so an absent or
empty summary contributes the empty line. -/
def summaryLine : Option String → String
  | some s => if s = "" then "" else s ++ "\n"
  | none => ""

/-- The lines pushed for one recipe at a given zero-based index
(page.tsx lines 101-111): a starred title carrying the one-based index, the
description, the ingredients block (one bullet per ingredient, in order) and
the steps block (one numbered line per step, in order), then a blank line. -/
def recipeLines (index : Nat) (r : Recipe) : List String :=
  ["*" ++ toString (index + 1) ++ ". " ++ r.name ++ "*",
   r.description,
   "_Ingredients_:"]
  ++ r.ingredients.map (fun g => "• " ++ g)
  ++ ["_Steps_:"]
  ++ r.steps.enum.map (fun p => toString (p.1 + 1) ++ ". " ++ p.2)
  ++ [""]

/-- All lines accumulated by `combinedMessage` before joining: the fixed
title, the summary line, then the per-recipe blocks in order. -/
def transcriptLines (recipes : List Recipe) (summary : Option String) :
    List String :=
  "🍳 *Kitchen Remix AI Recipes*" :: summaryLine summary ::
    recipes.enum.flatMap (fun p => recipeLines p.1 p.2)

/-- `combinedMessage` (page.tsx lines 95-113): the empty string when the
recipe list is empty, otherwise the lines joined with newlines and trimmed. -/
def combinedMessage (recipes : List Recipe) (summary : Option String) :
    String :=
  if recipes.length = 0 then ""
  else (String.intercalate "\n" (transcriptLines recipes summary)).trim

/-- Number of lines a recipe block occupies: five fixed lines (title,
description, the two block headers and the trailing blank line) plus one
line per ingredient and per step. -/
def blockLen (r : Recipe) : Nat := 5 + r.ingredients.length + r.steps.length

/-- Number of lines occupied by the blocks of the first `i` recipes. -/
def blocksLen (rs : List Recipe) (i : Nat) : Nat :=
  ((rs.take i).map blockLen).sum

/-! ### Concrete inputs used by the claim witnesses and counterexample -/

/-- A reply recipe object satisfying every recipe bound. -/
def c1Recipe : Json :=
  .obj [("name", .str "Bean Stew"),
        ("description", .str "A warm filling stew."),
        ("ingredients", .arr [.str "beans", .str "onion", .str "stock"]),
        ("steps", .arr [.str "Chop the onion", .str "Fry it gently",
                        .str "Simmer the beans"])]

/-- A model reply satisfying the whole payload schema. -/
def c1Reply : Json :=
  .obj [("summary", .str "Beans and onions spotted"),
        ("recipes", .arr [c1Recipe, c1Recipe, c1Recipe])]

/-- The validated result of `c1Reply`. -/
def c1Result : GenerationResult :=
  ⟨"Beans and onions spotted",
   [⟨"Bean Stew", "A warm filling stew.", ["beans", "onion", "stock"],
     ["Chop the onion", "Fry it gently", "Simmer the beans"]⟩,
    ⟨"Bean Stew", "A warm filling stew.", ["beans", "onion", "stock"],
     ["Chop the onion", "Fry it gently", "Simmer the beans"]⟩,
    ⟨"Bean Stew", "A warm filling stew.", ["beans", "onion", "stock"],
     ["Chop the onion", "Fry it gently", "Simmer the beans"]⟩]⟩

/-- A valid-JSON model reply whose `recipes` array is empty: it fails the
schema, but was parsed. -/
def c8BadReply : Json :=
  .obj [("summary", .str "Detected tomatoes and pasta"),
        ("recipes", .arr [])]

/-- A valid-JSON model reply whose summary is too short. -/
def c8ShortSummary : Json :=
  .obj [("summary", .str "short"), ("recipes", .arr [])]

/-- First transcript-witness recipe. -/
def w7r1 : Recipe :=
  ⟨"Bean Stew", "A warm filling stew.", ["beans", "onion", "stock"],
   ["Chop the onion", "Fry it gently", "Simmer the beans"]⟩

/-- Second transcript-witness recipe. -/
def w7r2 : Recipe :=
  ⟨"Green Salad", "Crisp leaves with dressing.", ["leaves", "oil", "lemon"],
   ["Wash the leaves", "Whisk the dressing", "Toss them together"]⟩

/-- Transcript-witness recipe list. -/
def w7rs : List Recipe := [w7r1, w7r2]

/-- Shared helper: with a blank credential the handler answers 500 with the
configuration message, whatever the body. -/
theorem waHandler_blankCreds (env : WhatsAppEnv) (body : Option Json)
    (h : isBlank env.token = true ∨ isBlank env.phoneId = true) :
    waHandler env body = .respond 500 waConfigMsg := by
  rcases h with h | h <;> simp [waHandler, h]

/-- Shared helper: `jsIndex0` on an array is its head. -/
theorem jsIndex0_arr (xs : List Json) : jsIndex0 (.arr xs) = xs.head? := by
  cases xs <;> rfl

/-- C6: if either messaging credential (access token or sender identifier) is
absent from configuration, the delivery handler fails with the configuration
error at HTTP status 500 and performs no outbound network call, regardless of
the request content. -/
theorem c6_missing_credentials_config_error (env : WhatsAppEnv) (body : Option Json)
    (h : env.token = none ∨ env.phoneId = none) :
    waHandler env body = .respond 500 waConfigMsg ∧
    ∀ p, waHandler env body ≠ .send p := by
  have hb : isBlank env.token = true ∨ isBlank env.phoneId = true := by
    rcases h with h | h
    · exact Or.inl (by rw [h]; rfl)
    · exact Or.inr (by rw [h]; rfl)
  have heq := waHandler_blankCreds env body hb
  refine ⟨heq, fun p hp => ?_⟩
  rw [heq] at hp
  exact WaStep.noConfusion hp

/-- C6 witness: with the access token absent, a well-formed request is
answered 500 with the configuration message. -/
theorem c6_witness :
    waHandler ⟨none, some "12345", some "+15550001111"⟩
      (some (.obj [("message", .str "Your recipes are ready"),
                   ("phoneNumber", .str "+14155551212")]))
      = .respond 500 waConfigMsg :=
  (c6_missing_credentials_config_error ⟨none, some "12345", some "+15550001111"⟩
    (some (.obj [("message", .str "Your recipes are ready"),
                 ("phoneNumber", .str "+14155551212")]))
    (Or.inl rfl)).1

/-- C10: the delivery handler checks the two credentials before reading or
validating the request body: with a credential absent, every request — the
invalid-JSON body `none` and every parsed body alike — receives the 500
configuration error and never a 400 validation error. -/
theorem c10_credentials_checked_before_body (env : WhatsAppEnv)
    (h : env.token = none ∨ env.phoneId = none) (body : Option Json) :
    waHandler env body = .respond 500 waConfigMsg ∧
    ∀ m, waHandler env body ≠ .respond 400 m := by
  have hb : isBlank env.token = true ∨ isBlank env.phoneId = true := by
    rcases h with h | h
    · exact Or.inl (by rw [h]; rfl)
    · exact Or.inr (by rw [h]; rfl)
  have heq := waHandler_blankCreds env body hb
  refine ⟨heq, fun m hm => ?_⟩
  rw [heq] at hm
  injection hm with h1 _
  exact absurd h1 (by decide)

/-- C10 witness: with the sender identifier absent, even the invalid-JSON
body (`none`) receives the 500 configuration error. -/
theorem c10_witness :
    waHandler ⟨some "token-abc", none, none⟩ none = .respond 500 waConfigMsg :=
  (c10_credentials_checked_before_body ⟨some "token-abc", none, none⟩
    (Or.inr rfl) none).1

/-- C4: a delivery request with no recipient supplied and no configured
default recipient fails with the 400 validation error and performs no
outbound call. -/
theorem c4_no_recipient_no_default_rejected (env : WhatsAppEnv) (j : Json)
    (req : WaRequest)
    (htok : isBlank env.token = false) (hpid : isBlank env.phoneId = false)
    (hparse : parseWaRequest j = some req)
    (hpn : req.phoneNumber = none) (hd : env.defaultRecipient = none) :
    waHandler env (some j) = .respond 400 waRecipientMsg ∧
    ∀ p, waHandler env (some j) ≠ .send p := by
  have heq : waHandler env (some j) = .respond 400 waRecipientMsg := by
    simp [waHandler, htok, hpid, hparse, resolveRecipient, hpn, hd, sendStep]
  refine ⟨heq, fun p hp => ?_⟩
  rw [heq] at hp
  exact WaStep.noConfusion hp

/-- C4 witness: valid message, no `phoneNumber`, no configured default. -/
theorem c4_witness :
    waHandler ⟨some "tok", some "12345", none⟩
      (some (.obj [("message", .str "Dinner plan for tonight")]))
      = .respond 400 waRecipientMsg :=
  (c4_no_recipient_no_default_rejected ⟨some "tok", some "12345", none⟩
    (.obj [("message", .str "Dinner plan for tonight")])
    ⟨"Dinner plan for tonight", none⟩ rfl rfl rfl rfl rfl).1

/-- C9: a delivery request whose `phoneNumber` field is present but equal to
the empty string fails with the 400 validation error and performs no outbound
call, for every environment — in particular the empty string does not fall
back to a configured default recipient. -/
theorem c9_empty_phone_rejected (env : WhatsAppEnv) (j : Json) (req : WaRequest)
    (htok : isBlank env.token = false) (hpid : isBlank env.phoneId = false)
    (hparse : parseWaRequest j = some req)
    (hpn : req.phoneNumber = some "") :
    waHandler env (some j) = .respond 400 waRecipientMsg ∧
    ∀ p, waHandler env (some j) ≠ .send p := by
  have heq : waHandler env (some j) = .respond 400 waRecipientMsg := by
    simp [waHandler, htok, hpid, hparse, resolveRecipient, hpn, sendStep]
  refine ⟨heq, fun p hp => ?_⟩
  rw [heq] at hp
  exact WaStep.noConfusion hp

/-- C9 witness: empty `phoneNumber` rejected although a default recipient is
configured. -/
theorem c9_witness :
    waHandler ⟨some "tok", some "12345", some "+15550001111"⟩
      (some (.obj [("message", .str "Shared recipe transcript"),
                   ("phoneNumber", .str "")]))
      = .respond 400 waRecipientMsg :=
  (c9_empty_phone_rejected ⟨some "tok", some "12345", some "+15550001111"⟩
    (.obj [("message", .str "Shared recipe transcript"),
           ("phoneNumber", .str "")])
    ⟨"Shared recipe transcript", some ""⟩ rfl rfl rfl rfl).1

/-- C3: a delivery request that supplies a (non-empty) recipient has exactly
that string placed in the outbound payload field `to`, whatever default is
configured; and whenever no recipient is supplied, a payload that is sent
carries the configured default in `to`. -/
theorem c3_explicit_recipient_overrides_default (env : WhatsAppEnv) (j : Json)
    (req : WaRequest)
    (htok : isBlank env.token = false) (hpid : isBlank env.phoneId = false)
    (hparse : parseWaRequest j = some req) :
    (∀ r, req.phoneNumber = some r → r ≠ "" →
      waHandler env (some j) = .send
        { messaging_product := "whatsapp", «to» := r, type := "text",
          text := { preview_url := false, body := req.message } }) ∧
    (req.phoneNumber = none →
      ∀ p, waHandler env (some j) = .send p →
        env.defaultRecipient = some p.«to») := by
  constructor
  · intro r hr hne
    simp [waHandler, htok, hpid, hparse, resolveRecipient, hr, sendStep, hne]
  · intro hpn p hp
    simp [waHandler, htok, hpid, hparse, resolveRecipient, hpn] at hp
    cases hd : env.defaultRecipient with
    | none =>
      rw [hd] at hp
      exact WaStep.noConfusion hp
    | some d =>
      rw [hd] at hp
      simp only [sendStep] at hp
      by_cases hde : d = ""
      · rw [if_pos hde] at hp
        exact WaStep.noConfusion hp
      · rw [if_neg hde] at hp
        injection hp with hpay
        rw [← hpay]

/-- C3 witness: an explicitly supplied recipient lands verbatim in the
payload field `to` although a different default recipient is configured. -/
theorem c3_witness :
    waHandler ⟨some "tok", some "12345", some "+15550001111"⟩
      (some (.obj [("message", .str "Your recipes are ready"),
                   ("phoneNumber", .str "+14155551212")]))
      = .send { messaging_product := "whatsapp", «to» := "+14155551212",
                type := "text",
                text := { preview_url := false,
                          body := "Your recipes are ready" } } :=
  (c3_explicit_recipient_overrides_default
    ⟨some "tok", some "12345", some "+15550001111"⟩
    (.obj [("message", .str "Your recipes are ready"),
           ("phoneNumber", .str "+14155551212")])
    ⟨"Your recipes are ready", some "+14155551212"⟩ rfl rfl rfl).1
    "+14155551212" rfl (by decide)

/-- C5: a successful messaging-API response carrying a `messages` array is
reported as state "queued" with the first message identifier when one is
present (`null` otherwise); a response without the `messages` field is
reported as state "sent" with identifier `null`. -/
theorem c5_queued_iff_messages_array (body : Json) :
    (∀ xs, jsGetField body "messages" = some (.arr xs) →
      (waOutcome body).1 = "queued" ∧
      (waOutcome body).2
        = ((xs.head?.bind (fun m => jsGetField m "id")).getD Json.null)) ∧
    (jsGetField body "messages" = none →
      (waOutcome body).1 = "sent" ∧ (waOutcome body).2 = Json.null) := by
  constructor
  · intro xs hxs
    constructor
    · simp [waOutcome, hxs, jsTruthy]
    · simp [waOutcome, hxs, jsIndex0_arr]
  · intro h
    exact ⟨by simp [waOutcome, h], by simp [waOutcome, h]⟩

/-- C5 witness: a body with a one-element `messages` array is queued and
surfaces that message identifier. -/
theorem c5_witness :
    (waOutcome (.obj [("messages",
        .arr [.obj [("id", .str "wamid.ABC")]])])).1 = "queued" ∧
    (waOutcome (.obj [("messages",
        .arr [.obj [("id", .str "wamid.ABC")]])])).2
      = ((([Json.obj [("id", Json.str "wamid.ABC")]]).head?.bind
            (fun m => jsGetField m "id")).getD Json.null) :=
  (c5_queued_iff_messages_array _).1 [.obj [("id", .str "wamid.ABC")]] rfl

/-- C2: with the API key configured, a generation request whose
`imageDataUrl` is the empty string or fails the image data-URL regex is
answered 400 with the validation message, and no model call is performed. -/
theorem c2_invalid_image_rejected (apiKey : Option String)
    (fs : List (String × Json)) (s : String)
    (hkey : isBlank apiKey = false)
    (himg : lookupField fs "imageDataUrl" = some (.str s))
    (hbad : s = "" ∨ imagePrefixMatch s = false) :
    generateHandler apiKey (some (.obj fs))
      = .respond 400 "Request validation failed." ∧
    ∀ req, generateHandler apiKey (some (.obj fs)) ≠ .callModel req := by
  have hparse : parseGenRequest (.obj fs) = none := by
    rcases hbad with h | h
    · subst h
      simp [parseGenRequest, himg]
    · simp [parseGenRequest, himg, h]
  have heq : generateHandler apiKey (some (.obj fs))
      = .respond 400 "Request validation failed." := by
    simp [generateHandler, hkey, hparse]
  refine ⟨heq, fun req hr => ?_⟩
  rw [heq] at hr
  exact GenStep.noConfusion hr

/-- C2 witness: a payload that is not a data URL is rejected with 400. -/
theorem c2_witness :
    generateHandler (some "sk-test")
      (some (.obj [("imageDataUrl", .str "plain text not a data url")]))
      = .respond 400 "Request validation failed." :=
  (c2_invalid_image_rejected (some "sk-test")
    [("imageDataUrl", .str "plain text not a data url")]
    "plain text not a data url" rfl rfl (Or.inr (by decide))).1

/-- Shared helper: a list validated by `parseStrings` has one entry per
input element, each meeting the length bound. -/
theorem parseStrings_ok (m : Nat) : ∀ (js : List Json) (ss : List String),
    parseStrings m js = .ok ss →
    ss.length = js.length ∧ ∀ s ∈ ss, m ≤ s.length := by
  intro js
  induction js with
  | nil =>
    intro ss h
    simp only [parseStrings] at h
    injection h with h
    subst h
    simp
  | cons j js ih =>
    intro ss h
    cases j with
    | str s =>
      simp only [parseStrings] at h
      by_cases hm : m ≤ s.length
      · rw [if_pos hm] at h
        cases hps : parseStrings m js with
        | error e => rw [hps] at h; exact Except.noConfusion h
        | ok rest =>
          rw [hps] at h
          injection h with h
          subst h
          obtain ⟨hlen, hall⟩ := ih rest hps
          refine ⟨by simp [hlen], ?_⟩
          intro x hx
          rcases List.mem_cons.mp hx with hx | hx
          · rw [hx]; exact hm
          · exact hall x hx
      · rw [if_neg hm] at h; exact Except.noConfusion h
    | null => simp only [parseStrings] at h; exact Except.noConfusion h
    | bool b => simp only [parseStrings] at h; exact Except.noConfusion h
    | num n => simp only [parseStrings] at h; exact Except.noConfusion h
    | arr xs => simp only [parseStrings] at h; exact Except.noConfusion h
    | obj fs => simp only [parseStrings] at h; exact Except.noConfusion h

/-- Shared helper: a recipe accepted by `parseRecipe` satisfies every field
bound of the schema. -/
theorem parseRecipe_ok (j : Json) (r : Recipe) (h : parseRecipe j = .ok r) :
    3 ≤ r.name.length ∧ 10 ≤ r.description.length ∧
    3 ≤ r.ingredients.length ∧ (∀ g ∈ r.ingredients, 2 ≤ g.length) ∧
    3 ≤ r.steps.length ∧ (∀ st ∈ r.steps, 5 ≤ st.length) := by
  cases j with
  | obj fs =>
    simp only [parseRecipe] at h
    cases hn : getStr fs "name" with
    | error e => rw [hn] at h; exact Except.noConfusion h
    | ok name =>
    rw [hn] at h
    by_cases h3 : 3 ≤ name.length
    · simp only [if_pos h3] at h
      cases hd : getStr fs "description" with
      | error e => rw [hd] at h; exact Except.noConfusion h
      | ok desc =>
      rw [hd] at h
      by_cases h10 : 10 ≤ desc.length
      · simp only [if_pos h10] at h
        cases hi : getArr fs "ingredients" with
        | error e => rw [hi] at h; exact Except.noConfusion h
        | ok ij =>
        rw [hi] at h
        by_cases hic : 3 ≤ ij.length
        · simp only [if_pos hic] at h
          cases hpi : parseStrings 2 ij with
          | error e => rw [hpi] at h; exact Except.noConfusion h
          | ok ings =>
          rw [hpi] at h
          cases hs : getArr fs "steps" with
          | error e => rw [hs] at h; exact Except.noConfusion h
          | ok sj =>
          rw [hs] at h
          by_cases hsc : 3 ≤ sj.length
          · simp only [if_pos hsc] at h
            cases hpsj : parseStrings 5 sj with
            | error e => rw [hpsj] at h; exact Except.noConfusion h
            | ok steps =>
            rw [hpsj] at h
            injection h with h
            subst h
            obtain ⟨hil, hia⟩ := parseStrings_ok 2 ij ings hpi
            obtain ⟨hsl, hsa⟩ := parseStrings_ok 5 sj steps hpsj
            exact ⟨h3, h10, by simp only; omega, hia, by simp only; omega, hsa⟩
          · simp only [if_neg hsc] at h; exact Except.noConfusion h
        · simp only [if_neg hic] at h; exact Except.noConfusion h
      · simp only [if_neg h10] at h; exact Except.noConfusion h
    · simp only [if_neg h3] at h; exact Except.noConfusion h
  | null => simp only [parseRecipe] at h; exact Except.noConfusion h
  | bool b => simp only [parseRecipe] at h; exact Except.noConfusion h
  | num n => simp only [parseRecipe] at h; exact Except.noConfusion h
  | str s => simp only [parseRecipe] at h; exact Except.noConfusion h
  | arr xs => simp only [parseRecipe] at h; exact Except.noConfusion h

/-- Shared helper: a recipe list accepted by `parseRecipes` has one entry
per input element, each accepted by `parseRecipe`. -/
theorem parseRecipes_ok : ∀ (js : List Json) (rs : List Recipe),
    parseRecipes js = .ok rs →
    rs.length = js.length ∧ ∀ r ∈ rs, ∃ j ∈ js, parseRecipe j = .ok r := by
  intro js
  induction js with
  | nil =>
    intro rs h
    simp only [parseRecipes] at h
    injection h with h
    subst h
    simp
  | cons j js ih =>
    intro rs h
    simp only [parseRecipes] at h
    cases hr : parseRecipe j with
    | error e => rw [hr] at h; exact Except.noConfusion h
    | ok r0 =>
      rw [hr] at h
      cases hrs : parseRecipes js with
      | error e => rw [hrs] at h; exact Except.noConfusion h
      | ok rest =>
        rw [hrs] at h
        injection h with h
        subst h
        obtain ⟨hlen, hall⟩ := ih rest hrs
        refine ⟨by simp [hlen], ?_⟩
        intro r hrm
        rcases List.mem_cons.mp hrm with hh | hh
        · exact ⟨j, List.mem_cons_self _ _, by rw [hh]; exact hr⟩
        · obtain ⟨j2, hj2, hp2⟩ := hall r hh
          exact ⟨j2, List.mem_cons_of_mem _ hj2, hp2⟩

/-- Shared helper: `getArr` succeeds exactly on an array-valued field. -/
theorem getArr_ok (fs : List (String × Json)) (key : String) (xs : List Json)
    (h : getArr fs key = .ok xs) : lookupField fs key = some (.arr xs) := by
  simp only [getArr] at h
  cases hl : lookupField fs key with
  | none => rw [hl] at h; exact Except.noConfusion h
  | some v =>
    rw [hl] at h
    cases v with
    | arr ys => injection h with h; subst h; rfl
    | null => exact Except.noConfusion h
    | bool b => exact Except.noConfusion h
    | num n => exact Except.noConfusion h
    | str s => exact Except.noConfusion h
    | obj fs2 => exact Except.noConfusion h

/-- Shared helper: a payload accepted by `parsePayloadE` satisfies the
summary bound, has 3 to 5 recipes each within bounds, and reproduces the
`recipes` array of the reply element for element (no truncation). -/
theorem parsePayloadE_ok (j : Json) (r : GenerationResult)
    (h : parsePayloadE j = .ok r) :
    (10 ≤ r.summary.length ∧ 3 ≤ r.recipes.length ∧ r.recipes.length ≤ 5 ∧
      ∀ rec ∈ r.recipes,
        3 ≤ rec.name.length ∧ 10 ≤ rec.description.length ∧
        3 ≤ rec.ingredients.length ∧ (∀ g ∈ rec.ingredients, 2 ≤ g.length) ∧
        3 ≤ rec.steps.length ∧ (∀ st ∈ rec.steps, 5 ≤ st.length)) ∧
    ∃ fs js, j = .obj fs ∧ lookupField fs "recipes" = some (.arr js) ∧
      r.recipes.length = js.length := by
  cases j with
  | obj fs =>
    simp only [parsePayloadE] at h
    cases hsum : getStr fs "summary" with
    | error e => rw [hsum] at h; exact Except.noConfusion h
    | ok summary =>
    rw [hsum] at h
    by_cases h10 : 10 ≤ summary.length
    · simp only [if_pos h10] at h
      cases ha : getArr fs "recipes" with
      | error e => rw [ha] at h; exact Except.noConfusion h
      | ok js =>
      rw [ha] at h
      by_cases h3 : 3 ≤ js.length
      · simp only [if_pos h3] at h
        by_cases h5 : js.length ≤ 5
        · simp only [if_pos h5] at h
          cases hrs : parseRecipes js with
          | error e => rw [hrs] at h; exact Except.noConfusion h
          | ok recipes =>
          rw [hrs] at h
          injection h with h
          subst h
          obtain ⟨hlen, hall⟩ := parseRecipes_ok js recipes hrs
          refine ⟨⟨h10, by simp only; omega, by simp only; omega, ?_⟩,
            fs, js, rfl, getArr_ok fs "recipes" js ha, by simp only; omega⟩
          intro rec hrec
          obtain ⟨j2, _, hp2⟩ := hall rec hrec
          exact parseRecipe_ok j2 rec hp2
        · simp only [if_neg h5] at h; exact Except.noConfusion h
      · simp only [if_neg h3] at h; exact Except.noConfusion h
    · simp only [if_neg h10] at h; exact Except.noConfusion h
  | null => simp only [parsePayloadE] at h; exact Except.noConfusion h
  | bool b => simp only [parsePayloadE] at h; exact Except.noConfusion h
  | num n => simp only [parsePayloadE] at h; exact Except.noConfusion h
  | str s => simp only [parsePayloadE] at h; exact Except.noConfusion h
  | arr xs => simp only [parsePayloadE] at h; exact Except.noConfusion h

/-- C1: every model reply accepted by the generation route yields a result
whose summary and recipes satisfy all schema bounds (3 to 5 recipes, field
lengths and counts), and whose recipe list reproduces the reply's `recipes`
array element for element — never a truncated or under-populated result. -/
theorem c1_accepted_reply_within_bounds (reply : ModelReply)
    (r : GenerationResult) (h : handleModelReply reply = .success r) :
    (10 ≤ r.summary.length ∧ 3 ≤ r.recipes.length ∧ r.recipes.length ≤ 5 ∧
      ∀ rec ∈ r.recipes,
        3 ≤ rec.name.length ∧ 10 ≤ rec.description.length ∧
        3 ≤ rec.ingredients.length ∧ (∀ g ∈ rec.ingredients, 2 ≤ g.length) ∧
        3 ≤ rec.steps.length ∧ (∀ st ∈ rec.steps, 5 ≤ st.length)) ∧
    ∃ fs js, reply = .parsed (.obj fs) ∧
      lookupField fs "recipes" = some (.arr js) ∧
      r.recipes.length = js.length := by
  cases reply with
  | noText => simp [handleModelReply, emptyReplyMsg] at h
  | invalidJson => simp [handleModelReply, retakeMsg] at h
  | parsed j =>
    simp only [handleModelReply] at h
    cases hp : parsePayloadE j with
    | error issues => rw [hp] at h; exact GenReplyResult.noConfusion h
    | ok r0 =>
      rw [hp] at h
      injection h with h
      subst h
      obtain ⟨hbounds, fs, js, hj, hfield, hlen⟩ := parsePayloadE_ok j r0 hp
      exact ⟨hbounds, fs, js, by rw [hj], hfield, hlen⟩

/-- C1 witness: a concrete accepted reply with three recipes. -/
theorem c1_witness :
    3 ≤ c1Result.recipes.length ∧ c1Result.recipes.length ≤ 5 :=
  ⟨(c1_accepted_reply_within_bounds (.parsed c1Reply) c1Result rfl).1.2.1,
   (c1_accepted_reply_within_bounds (.parsed c1Reply) c1Result rfl).1.2.2.1⟩

/-- C8 counterexample: a model reply that is valid JSON but fails the
schema (an empty `recipes` array) is surfaced with the schema validator's
issue message, which does not mention the photo — not with a message
instructing the user to retry with a different photo. -/
theorem c8_counterexample :
    handleModelReply (.parsed c8BadReply)
      = .failure 500 (zodErrorMessage [arrMinMsg 3]) ∧
    mentionsPhoto (zodErrorMessage [arrMinMsg 3]) = false := by
  exact ⟨rfl, rfl⟩

/-- C8 (amended): a reply whose text is not valid JSON is surfaced with the
retake-the-photo instruction; a reply failing the schema is surfaced with
the schema validator's issue serialization instead. -/
theorem c8_amended_error_messages :
    handleModelReply .invalidJson = .failure 500 retakeMsg ∧
    mentionsPhoto retakeMsg = true ∧
    ∀ j issues, parsePayloadE j = .error issues →
      handleModelReply (.parsed j) = .failure 500 (zodErrorMessage issues) := by
  refine ⟨rfl, rfl, ?_⟩
  intro j issues hp
  simp [handleModelReply, hp]

/-- C8 witness: a reply with a too-short summary surfaces the validator's
issue message. -/
theorem c8_witness :
    handleModelReply (.parsed c8ShortSummary)
      = .failure 500 (zodErrorMessage [strMinMsg 10]) :=
  c8_amended_error_messages.2.2 c8ShortSummary [strMinMsg 10] rfl

/-- Shared helper: dropping an initial segment plus `m` skips it. -/
theorem drop_append_len {α : Type} (A B : List α) (m : Nat) :
    (A ++ B).drop (A.length + m) = B.drop m := by
  induction A with
  | nil => simp
  | cons a as ih =>
    have hsucc : as.length + 1 + m = (as.length + m) + 1 := by omega
    simp only [List.cons_append, List.length_cons, hsucc, List.drop_succ_cons]
    exact ih

/-- Shared helper: a recipe block occupies `blockLen` lines. -/
theorem recipeLines_length (k : Nat) (r : Recipe) :
    (recipeLines k r).length = blockLen r := by
  simp [recipeLines, blockLen, List.enum_length]
  omega

/-- Shared helper: dropping the first `i` blocks of the enumerated recipe
lines leaves the block of recipe `i` followed by the remaining blocks. -/
theorem transcript_blocks : ∀ (rs : List Recipe) (k i : Nat)
    (h : i < rs.length),
    ((rs.enumFrom k).flatMap (fun p => recipeLines p.1 p.2)).drop
        (blocksLen rs i)
      = recipeLines (k + i) (rs.get ⟨i, h⟩)
        ++ ((rs.drop (i + 1)).enumFrom (k + i + 1)).flatMap
            (fun p => recipeLines p.1 p.2) := by
  intro rs
  induction rs with
  | nil =>
    intro k i h
    exact absurd h (by simp)
  | cons r rs ih =>
    intro k i h
    cases i with
    | zero =>
      simp [blocksLen, List.enumFrom]
    | succ j =>
      have hj : j < rs.length := by
        simp only [List.length_cons] at h
        omega
      have hblocks : blocksLen (r :: rs) (j + 1)
          = blockLen r + blocksLen rs j := by
        simp [blocksLen]
      have hflat : ((r :: rs).enumFrom k).flatMap
            (fun p => recipeLines p.1 p.2)
          = recipeLines k r
            ++ (rs.enumFrom (k + 1)).flatMap (fun p => recipeLines p.1 p.2) := by
        simp [List.enumFrom]
      rw [hflat, hblocks, ← recipeLines_length k r, drop_append_len]
      rw [ih (k + 1) j hj]
      have harith : k + 1 + j = k + (j + 1) := by omega
      rw [harith]
      rfl

/-- C7: transcript generation is a deterministic function of the recipe
list and summary; on a non-empty list it is the trimmed newline-join of the
accumulated lines, and the block of the recipe at position `i` — its
1-based-index title, description, ingredient bullets in order and numbered
steps in order — occupies exactly the lines after the two header lines and
the blocks of the earlier recipes, in the order supplied. -/
theorem c7_transcript_deterministic_ordered (rs : List Recipe)
    (s : Option String) :
    combinedMessage rs s = combinedMessage rs s ∧
    (rs ≠ [] →
      combinedMessage rs s
        = (String.intercalate "\n" (transcriptLines rs s)).trim) ∧
    ∀ i (h : i < rs.length),
      ((transcriptLines rs s).drop (2 + blocksLen rs i)).take
          (blockLen (rs.get ⟨i, h⟩))
        = recipeLines i (rs.get ⟨i, h⟩) := by
  refine ⟨rfl, ?_, ?_⟩
  · intro hne
    have hlen : ¬ rs.length = 0 := by simpa [List.length_eq_zero] using hne
    simp [combinedMessage, hlen]
  · intro i h
    have hdrop : (transcriptLines rs s).drop (2 + blocksLen rs i)
        = ((rs.enumFrom 0).flatMap (fun p => recipeLines p.1 p.2)).drop
            (blocksLen rs i) := by
      rw [show 2 + blocksLen rs i = blocksLen rs i + 1 + 1 by omega]
      simp [transcriptLines, List.enum]
    rw [hdrop, transcript_blocks rs 0 i h, Nat.zero_add]
    rw [← recipeLines_length i (rs.get ⟨i, h⟩)]
    exact List.take_left _ _

/-- C7 witness: on a concrete two-recipe list the transcript is the trimmed
join, and the second recipe's block sits right after the header and the
first block. -/
theorem c7_witness :
    combinedMessage w7rs (some "Two veggie dinners")
      = (String.intercalate "\n"
          (transcriptLines w7rs (some "Two veggie dinners"))).trim ∧
    ((transcriptLines w7rs (some "Two veggie dinners")).drop
        (2 + blocksLen w7rs 1)).take (blockLen w7r2)
      = recipeLines 1 w7r2 :=
  ⟨(c7_transcript_deterministic_ordered w7rs (some "Two veggie dinners")).2.1
      (by simp [w7rs]),
   (c7_transcript_deterministic_ordered w7rs (some "Two veggie dinners")).2.2
      1 (by decide)⟩

end KitchenRemix
